import Mathlib

/-!
Verification of the `masters_control` pose relay
(`scripts/masters_yumi_connector.py`).

The connector subscribes to master-arm Cartesian poses, tracks a clutch
state machine and a zero/reset baseline, and republishes target poses for
the YuMi robot.  We shallowly embed the relay state and its three
callbacks (`_reset_init_poses`, `_clutch_callback`,
`_position_cartesian_current_callback`) and prove the spec's claims about
them.  Rotations and translations are over `ℤ`; rigid transforms carry the
`(from_frame, to_frame)` string labels of `autolab_core.RigidTransform`,
whose compose / inverse / relabel semantics are modelled from the spec's
Frame Registry section (§4.1).
-/

/-- 3-vector over `ℤ` (a translation). -/
@[ext] structure V3 where
  x : ℤ
  y : ℤ
  z : ℤ
deriving DecidableEq

def V3.zero : V3 := ⟨0, 0, 0⟩

def V3.add (v w : V3) : V3 := ⟨v.x + w.x, v.y + w.y, v.z + w.z⟩

def V3.neg (v : V3) : V3 := ⟨-v.x, -v.y, -v.z⟩

/-- 3×3 matrix over `ℤ` (a rotation payload). -/
@[ext] structure M3 where
  m00 : ℤ
  m01 : ℤ
  m02 : ℤ
  m10 : ℤ
  m11 : ℤ
  m12 : ℤ
  m20 : ℤ
  m21 : ℤ
  m22 : ℤ
deriving DecidableEq

def M3.one : M3 := ⟨1, 0, 0, 0, 1, 0, 0, 0, 1⟩

def M3.mul (A B : M3) : M3 :=
  ⟨A.m00 * B.m00 + A.m01 * B.m10 + A.m02 * B.m20,
   A.m00 * B.m01 + A.m01 * B.m11 + A.m02 * B.m21,
   A.m00 * B.m02 + A.m01 * B.m12 + A.m02 * B.m22,
   A.m10 * B.m00 + A.m11 * B.m10 + A.m12 * B.m20,
   A.m10 * B.m01 + A.m11 * B.m11 + A.m12 * B.m21,
   A.m10 * B.m02 + A.m11 * B.m12 + A.m12 * B.m22,
   A.m20 * B.m00 + A.m21 * B.m10 + A.m22 * B.m20,
   A.m20 * B.m01 + A.m21 * B.m11 + A.m22 * B.m21,
   A.m20 * B.m02 + A.m21 * B.m12 + A.m22 * B.m22⟩

def M3.transpose (A : M3) : M3 :=
  ⟨A.m00, A.m10, A.m20, A.m01, A.m11, A.m21, A.m02, A.m12, A.m22⟩

def M3.mulVec (A : M3) (v : V3) : V3 :=
  ⟨A.m00 * v.x + A.m01 * v.y + A.m02 * v.z,
   A.m10 * v.x + A.m11 * v.y + A.m12 * v.z,
   A.m20 * v.x + A.m21 * v.y + A.m22 * v.z⟩

/-- Orthogonality of a rotation payload (what makes `transpose` a true
inverse; guaranteed for rotations delivered by the masters transport). -/
def M3.IsOrtho (R : M3) : Prop :=
  R.mul R.transpose = M3.one ∧ R.transpose.mul R = M3.one

instance (R : M3) : Decidable (M3.IsOrtho R) :=
  inferInstanceAs (Decidable (_ ∧ _))

theorem V3.add_assoc (u v w : V3) : (u.add v).add w = u.add (v.add w) := by
  simp only [V3.add]; ext <;> ring

theorem V3.zero_add (v : V3) : V3.zero.add v = v := by
  simp only [V3.add, V3.zero]; ext <;> ring

theorem V3.add_zero (v : V3) : v.add V3.zero = v := by
  simp only [V3.add, V3.zero]; ext <;> ring

theorem V3.add_neg (v : V3) : v.add v.neg = V3.zero := by
  simp only [V3.add, V3.neg, V3.zero]; ext <;> ring

theorem M3.mul_assoc (A B C : M3) : (A.mul B).mul C = A.mul (B.mul C) := by
  simp only [M3.mul]; ext <;> ring

theorem M3.one_mul (A : M3) : M3.one.mul A = A := by
  simp only [M3.mul, M3.one]; ext <;> ring

theorem M3.mul_one (A : M3) : A.mul M3.one = A := by
  simp only [M3.mul, M3.one]; ext <;> ring

theorem M3.transpose_one : M3.one.transpose = M3.one := by
  simp only [M3.transpose, M3.one]

theorem M3.mulVec_mulVec (A B : M3) (v : V3) :
    (A.mul B).mulVec v = A.mulVec (B.mulVec v) := by
  simp only [M3.mul, M3.mulVec]; ext <;> ring

theorem M3.one_mulVec (v : V3) : M3.one.mulVec v = v := by
  simp only [M3.mulVec, M3.one]; ext <;> ring

theorem M3.mulVec_zero (A : M3) : A.mulVec V3.zero = V3.zero := by
  simp only [M3.mulVec, V3.zero]; ext <;> ring

theorem M3.mulVec_add (A : M3) (v w : V3) :
    A.mulVec (v.add w) = (A.mulVec v).add (A.mulVec w) := by
  simp only [M3.mulVec, V3.add]; ext <;> ring

theorem M3.mulVec_neg (A : M3) (v : V3) :
    A.mulVec v.neg = (A.mulVec v).neg := by
  simp only [M3.mulVec, V3.neg]; ext <;> ring

/-- Modelled from the spec: a `RigidTransform` (from `autolab_core`, not in
`src/`) is "a rotation + translation pair tagged with a `(from_frame,
to_frame)` label pair", an immutable value type.  Omitted constructor
arguments default to the identity rotation / zero translation exactly as
in the Python constructor. -/
@[ext] structure RigidTransform where
  rotation : M3 := M3.one
  translation : V3 := V3.zero
  from_frame : String
  to_frame : String
deriving DecidableEq

/-- Modelled from the spec: `invert(A_to_B) -> B_to_A`; numerically the
rotation is transposed and the translation becomes `-Rᵀ·t`. -/
def RigidTransform.inverse (T : RigidTransform) : RigidTransform :=
  ⟨T.rotation.transpose, (T.rotation.transpose.mulVec T.translation).neg,
   T.to_frame, T.from_frame⟩

/-- Modelled from the spec: `rebase(transform, new_from, new_to)`
reinterprets a transform under new frame labels without altering the
numeric payload (Python `as_frames`). -/
def RigidTransform.as_frames (T : RigidTransform) (f t : String) : RigidTransform :=
  { T with from_frame := f, to_frame := t }

/-- Unchecked composition of the numeric payloads (the value computed by
`compose` when the frame labels do match). -/
def RigidTransform.compV (a b : RigidTransform) : RigidTransform :=
  ⟨a.rotation.mul b.rotation,
   (a.rotation.mulVec b.translation).add a.translation,
   b.from_frame, a.to_frame⟩

/-- Modelled from the spec: `compose(A_to_B, B_to_C) -> A_to_C`, which
"fails with `FrameMismatch` if the inner frame labels differ" (Python
`RigidTransform.__mul__`); `none` is the `FrameMismatch` signal. -/
def RigidTransform.mul (a b : RigidTransform) : Option RigidTransform :=
  if a.from_frame = b.to_frame then some (a.compV b) else none

/-- A transform with identity payload and the given labels (Python
`RigidTransform(from_frame=f, to_frame=t)`). -/
def idRT (f t : String) : RigidTransform := ⟨M3.one, V3.zero, f, t⟩

theorem RigidTransform.compV_assoc (a b c : RigidTransform) :
    (a.compV b).compV c = a.compV (b.compV c) := by
  simp only [RigidTransform.compV, M3.mul_assoc, M3.mulVec_add,
    M3.mulVec_mulVec, V3.add_assoc]

theorem RigidTransform.compV_idRT (a : RigidTransform) (f t : String) :
    a.compV (idRT f t) = { a with from_frame := f } := by
  simp only [RigidTransform.compV, idRT, M3.mul_one, M3.mulVec_zero, V3.zero_add]

/-- Modelled from the spec: the wire `Pose` of the pose transport is just a
position + orientation pair (no frame labels). -/
@[ext] structure Pose where
  rotation : M3
  translation : V3
deriving DecidableEq

/-- Modelled from the spec: `ros_pose_to_T` (from the `yumi_teleop`
package, not present under `src/`) attaches the given frame labels to a
wire pose, payload unchanged. -/
def ros_pose_to_T (p : Pose) (f t : String) : RigidTransform :=
  ⟨p.rotation, p.translation, f, t⟩

/-- Modelled from the spec: `T_to_ros_pose` (from the `yumi_teleop`
package, not present under `src/`) strips the frame labels from a
transform, payload unchanged. -/
def T_to_ros_pose (T : RigidTransform) : Pose :=
  ⟨T.rotation, T.translation⟩

/-- `_T_MC_YCR`: fixed master↔robot calibration rotation
(`yumi_current_ref` → `masters_current`). -/
def T_MC_YCR : RigidTransform :=
  ⟨⟨0, -1, 0, 1, 0, 0, 0, 0, 1⟩, V3.zero, "yumi_current_ref", "masters_current"⟩

/-- `_T_YIR_MI`: fixed master↔robot calibration rotation
(`masters_init` → `yumi_init_ref`). -/
def T_YIR_MI : RigidTransform :=
  ⟨⟨0, 1, 0, -1, 0, 0, 0, 0, 1⟩, V3.zero, "masters_init", "yumi_init_ref"⟩

/-- Decimal digit to character, as Python `str.format` renders it. -/
def digitChar : Nat → Char
  | 0 => '0' | 1 => '1' | 2 => '2' | 3 => '3' | 4 => '4'
  | 5 => '5' | 6 => '6' | 7 => '7' | 8 => '8' | 9 => '9'
  | _ => '*'

def charDigit (c : Char) : Nat := c.toNat - 48

/-- Little-endian decimal digits of `n`, with `fuel` bounding the
recursion depth (structural, so the kernel can evaluate it). -/
def digitsRevFuel : Nat → Nat → List Nat
  | 0, _ => []
  | fuel + 1, n => if n = 0 then [] else n % 10 :: digitsRevFuel fuel (n / 10)

/-- Decimal rendering of a natural number ('{0}'.format in Python). -/
def natStr (n : Nat) : String :=
  if n = 0 then "0" else String.mk (((digitsRevFuel n n).map digitChar).reverse)

def parseNat (s : String) : Nat :=
  Nat.ofDigits 10 ((s.data.map charDigit).reverse)

theorem charDigit_digitChar {d : Nat} (h : d < 10) :
    charDigit (digitChar d) = d := by
  interval_cases d <;> rfl

theorem digitsRevFuel_lt (fuel : Nat) : ∀ n, ∀ d ∈ digitsRevFuel fuel n, d < 10 := by
  induction fuel with
  | zero => intro n d hd; simp [digitsRevFuel] at hd
  | succ f ih =>
    intro n d hd
    by_cases hn : n = 0
    · simp [digitsRevFuel, hn] at hd
    · simp only [digitsRevFuel, hn, if_false, List.mem_cons] at hd
      rcases hd with h | h
      · subst h; exact Nat.mod_lt _ (by norm_num)
      · exact ih (n / 10) d h

theorem ofDigits_digitsRevFuel : ∀ fuel n, n ≤ fuel →
    Nat.ofDigits 10 (digitsRevFuel fuel n) = n := by
  intro fuel
  induction fuel with
  | zero =>
    intro n h
    interval_cases n
    rfl
  | succ f ih =>
    intro n h
    by_cases hn : n = 0
    · subst hn; rfl
    · have hlt : n / 10 < n := Nat.div_lt_self (Nat.pos_of_ne_zero hn) (by norm_num)
      have hdiv : n / 10 ≤ f := by omega
      simp only [digitsRevFuel, hn, if_false]
      rw [Nat.ofDigits_cons, ih (n / 10) hdiv]
      omega

theorem parseNat_natStr (n : Nat) : parseNat (natStr n) = n := by
  by_cases h : n = 0
  · subst h; rfl
  · have hd : ∀ d ∈ digitsRevFuel n n, charDigit (digitChar d) = d := fun d hdm =>
      charDigit_digitChar (digitsRevFuel_lt n n d hdm)
    simp only [natStr, h, if_false]
    show Nat.ofDigits 10
        (((((digitsRevFuel n n).map digitChar).reverse).map charDigit).reverse) = n
    rw [List.map_reverse, List.reverse_reverse, List.map_map]
    have hmap : (digitsRevFuel n n).map (charDigit ∘ digitChar) = digitsRevFuel n n := by
      conv_rhs => rw [← List.map_id (digitsRevFuel n n)]
      exact List.map_congr_left fun d hdm => hd d hdm
    rw [hmap, ofDigits_digitsRevFuel n n le_rfl]

theorem natStr_inj {i j : Nat} (h : natStr i = natStr j) : i = j := by
  have := congrArg parseNat h
  rwa [parseNat_natStr, parseNat_natStr] at this

/-- One record of the `cb_prop_q` property queue: either a `has_zeroed`
flag update or the six baseline transforms pushed together by
`_reset_init_poses` (note `T_mz_cu_t` is never part of a queued record). -/
inductive CbRecord where
  | setHZ (b : Bool)
  | setBaseline (T_w_cu_t T_mzr_mz T_mc_mcr T_w_yi T_yi_yir T_ycr_yc : RigidTransform)
deriving DecidableEq

/-- The mutable state of one `MastersYuMiConnector` instance (`__init__`).
`clutch_i` is the Python `_clutch_i` epoch counter; optional transforms
start as Python `None`. -/
structure ConnState where
  clutch_state : Bool
  clutch_i : Nat
  T_mz_cu_t : Option RigidTransform
  T_w_cu_t : Option RigidTransform
  T_mzr_mz : Option RigidTransform
  T_mc_mcr : Option RigidTransform
  T_w_mc : Option RigidTransform
  T_w_cd_t1 : Option RigidTransform
  T_w_yi : Option RigidTransform
  T_yi_yir : Option RigidTransform
  T_ycr_yc : Option RigidTransform
  cb_prop_q : List CbRecord
  has_zeroed : Bool
  has_clutched_down : Bool
  has_clutched_up : Bool
deriving DecidableEq

/-- The state built by `__init__` (topic wiring omitted: infrastructure). -/
def initState : ConnState :=
  ⟨false, 0, none, none, none, none, none, none, none, none, none, [], false, false, false⟩

/-- `setattr(self, key, val)` for every key of one queued record. -/
def applyRecord (s : ConnState) : CbRecord → ConnState
  | .setHZ b => { s with has_zeroed := b }
  | .setBaseline a b c d e f =>
      { s with T_w_cu_t := some a, T_mzr_mz := some b, T_mc_mcr := some c,
               T_w_yi := some d, T_yi_yir := some e, T_ycr_yc := some f }

/-- `_update_cb_objs`: if the queue is nonempty, pop ONE record (FIFO) and
apply its key/value pairs to the live state. -/
def update_cb_objs (s : ConnState) : ConnState :=
  match s.cb_prop_q with
  | [] => s
  | r :: rest => applyRecord { s with cb_prop_q := rest } r

/-- `_clutch(state)`: the epoch-scoped frame label
`'clutch_{state}_{clutch_i}'`. -/
def clutchFrame (tag : String) (i : Nat) : String :=
  "clutch_" ++ tag ++ "_" ++ natStr i

/-- `runExc e` is the connector state after a callback that may raise: on
an exception the partial mutations performed so far persist on the object
(the transport layer logs the error and keeps dispatching). -/
def runExc (e : Except ConnState ConnState) : ConnState :=
  match e with
  | .ok s => s
  | .error s => s

def exceptOk (e : Except ConnState ConnState) : Bool :=
  match e with
  | .ok _ => true
  | .error _ => false

/-- `_reset_init_poses(yumi_pose)`: push `has_zeroed := false`, rebuild the
master- and robot-side baselines from the last received master pose
`T_w_mc` and the supplied robot pose (assigning them in place as it goes),
then push the six baseline fields and `has_zeroed := true` onto the queue.
Accessing `T_w_mc` while it is still `None` raises (`.error` carries the
partially mutated object state). -/
def reset_init_poses (s0 : ConnState) (yumi_pose : RigidTransform) :
    Except ConnState ConnState :=
  let s1 := { s0 with cb_prop_q := s0.cb_prop_q ++ [CbRecord.setHZ false] }
  let s2 := { s1 with
    T_mz_cu_t := some (idRT (clutchFrame "up" s1.clutch_i) "masters_zero") }
  match s2.T_w_mc with
  | none => .error s2
  | some m =>
    let twcu := m.as_frames (clutchFrame "up" s2.clutch_i) "world"
    let tmzrmz : RigidTransform :=
      ⟨twcu.rotation, V3.zero, "masters_zero", "masters_zero_ref"⟩
    let tmcmcr : RigidTransform :=
      ⟨twcu.inverse.rotation, V3.zero, "masters_current_ref", "masters_current"⟩
    let twyi := yumi_pose
    let tyiyir : RigidTransform :=
      ⟨twyi.inverse.rotation, V3.zero, "yumi_init_ref", "yumi_init"⟩
    let tycryc : RigidTransform :=
      ⟨twyi.rotation, V3.zero, "yumi_current", "yumi_current_ref"⟩
    let s3 := { s2 with
      T_w_cu_t := some twcu, T_mzr_mz := some tmzrmz, T_mc_mcr := some tmcmcr,
      T_w_yi := some twyi, T_yi_yir := some tyiyir, T_ycr_yc := some tycryc }
    .ok { s3 with cb_prop_q :=
      s3.cb_prop_q ++ [CbRecord.setBaseline twcu tmzrmz tmcmcr twyi tyiyir tycryc,
                       CbRecord.setHZ true] }

/-- `_clutch_callback(msg)`: ignored before zeroing; clutch-down bumps the
epoch and snapshots `T_w_cd_t1`; clutch-up folds the clutched motion into
`T_mz_cu_t` and refreshes `T_w_cu_t`; finally `clutch_state := msg`. -/
def clutch_callback (s : ConnState) (clutch_down : Bool) :
    Except ConnState ConnState :=
  if ¬ s.has_zeroed then .ok s
  else if clutch_down then
    let s1 := { s with clutch_i := s.clutch_i + 1 }
    match s1.T_w_mc with
    | none => .error s1
    | some m =>
      .ok { s1 with
        T_w_cd_t1 := some (m.as_frames (clutchFrame "down" s1.clutch_i) "world"),
        clutch_state := clutch_down }
  else
    match s.T_mz_cu_t, s.T_w_cu_t, s.T_w_cd_t1 with
    | some tmzcu, some twcu, some twcd =>
      match RigidTransform.mul tmzcu twcu.inverse with
      | none => .error s
      | some a =>
        match RigidTransform.mul a twcd with
        | none => .error s
        | some b =>
          match RigidTransform.mul b
              (idRT (clutchFrame "up" s.clutch_i) (clutchFrame "down" s.clutch_i)) with
          | none => .error s
          | some z =>
            let s1 := { s with T_mz_cu_t := some z }
            match s1.T_w_mc with
            | none => .error s1
            | some m =>
              .ok { s1 with
                T_w_cu_t := some (m.as_frames (clutchFrame "up" s1.clutch_i) "world"),
                clutch_state := clutch_down }
    | _, _, _ => .error s

/-- The transform chain of `_position_cartesian_current_callback` (lines
126–131): `T_mz_mc`, `T_mzr_mcr`, the `masters_current → masters_init`
relabel, the calibration rotations and the robot-side baseline chain.
`none` means an attribute was `None` or a composition raised
`FrameMismatch`. -/
def forwardT (s : ConnState) : Option RigidTransform :=
  match s.T_mz_cu_t, s.T_w_cu_t, s.T_w_mc, s.T_mzr_mz, s.T_mc_mcr,
        s.T_w_yi, s.T_yi_yir, s.T_ycr_yc with
  | some tmzcu, some twcu, some twmc, some tmzrmz, some tmcmcr,
    some twyi, some tyiyir, some tycryc =>
    (RigidTransform.mul tmzcu twcu.inverse).bind fun a =>
    (RigidTransform.mul a twmc).bind fun tmzmc =>
    (RigidTransform.mul tmzrmz tmzmc).bind fun b =>
    (RigidTransform.mul b tmcmcr).bind fun tmzrmcr =>
    (RigidTransform.mul T_YIR_MI
        (tmzrmcr.as_frames "masters_current" "masters_init")).bind fun c =>
    (RigidTransform.mul c T_MC_YCR).bind fun tyirycr =>
    (RigidTransform.mul twyi tyiyir).bind fun d =>
    (RigidTransform.mul d tyirycr).bind fun e =>
    RigidTransform.mul e tycryc
  | _, _, _, _, _, _, _, _ => none

/-- `_position_cartesian_current_callback(ros_pose)`: store the pose as
`T_w_mc`, drain one queued record, and — when zeroed and not clutched —
publish the composed robot target pose.  The second component is the
published pose (`none`: nothing published; a raised `FrameMismatch` only
skips the publish, the state mutations before the chain stand). -/
def position_cartesian_current_callback (s : ConnState) (ros_pose : Pose) :
    ConnState × Option Pose :=
  let s1 := { s with T_w_mc := some (ros_pose_to_T ros_pose "masters_current" "world") }
  let s2 := update_cb_objs s1
  if ¬ s2.has_zeroed then (s2, none)
  else if ¬ s2.clutch_state then
    match forwardT s2 with
    | some t => (s2, some (T_to_ros_pose t))
    | none => (s2, none)
  else (s2, none)

/-- An input event of one relay instance: a master pose sample, a clutch
pedal message, or a reset service invocation. -/
inductive Event where
  | pose (p : Pose)
  | clutch (b : Bool)
  | reset (y : RigidTransform)
deriving DecidableEq

def Event.isRst : Event → Bool
  | .reset _ => true
  | _ => false

/-- One event processed against the live state; the second component is
the pose published by that event, if any. -/
def step (s : ConnState) : Event → ConnState × Option Pose
  | .pose p => position_cartesian_current_callback s p
  | .clutch b => (runExc (clutch_callback s b), none)
  | .reset y => (runExc (reset_init_poses s y), none)

/-- The stream of publish results along an event trace. -/
def outs : ConnState → List Event → List (Option Pose)
  | _, [] => []
  | s, e :: es => (step s e).2 :: outs (step s e).1 es

/-- The state once every queued record has been drained (i.e. after
`update_cb_objs` has run once per pending record). -/
def settle (s : ConnState) : ConnState :=
  { s.cb_prop_q.foldl applyRecord s with cb_prop_q := [] }

def framesOf : Option RigidTransform → Option (String × String)
  | none => none
  | some t => some (t.from_frame, t.to_frame)

/-- A well-formed zeroed, disengaged state: the baseline fields carry the
frame labels produced by `_reset_init_poses` / clutch-up, the queue is
drained, and the clutch is released. -/
def Steady (s : ConnState) : Prop :=
  s.has_zeroed = true ∧ s.clutch_state = false ∧ s.cb_prop_q = [] ∧
  framesOf s.T_mz_cu_t = some (clutchFrame "up" s.clutch_i, "masters_zero") ∧
  framesOf s.T_w_cu_t = some (clutchFrame "up" s.clutch_i, "world") ∧
  framesOf s.T_mzr_mz = some ("masters_zero", "masters_zero_ref") ∧
  framesOf s.T_mc_mcr = some ("masters_current_ref", "masters_current") ∧
  framesOf s.T_w_yi = some ("yumi_init", "world") ∧
  framesOf s.T_yi_yir = some ("yumi_init_ref", "yumi_init") ∧
  framesOf s.T_ycr_yc = some ("yumi_current", "yumi_current_ref")

instance (s : ConnState) : Decidable (Steady s) :=
  inferInstanceAs (Decidable (_ ∧ _))

@[simp] theorem RigidTransform.compV_from_frame (a b : RigidTransform) :
    (a.compV b).from_frame = b.from_frame := rfl

@[simp] theorem RigidTransform.compV_to_frame (a b : RigidTransform) :
    (a.compV b).to_frame = a.to_frame := rfl

@[simp] theorem RigidTransform.inverse_from_frame (a : RigidTransform) :
    a.inverse.from_frame = a.to_frame := rfl

@[simp] theorem RigidTransform.inverse_to_frame (a : RigidTransform) :
    a.inverse.to_frame = a.from_frame := rfl

@[simp] theorem RigidTransform.as_frames_from_frame (a : RigidTransform) (f t : String) :
    (a.as_frames f t).from_frame = f := rfl

@[simp] theorem RigidTransform.as_frames_to_frame (a : RigidTransform) (f t : String) :
    (a.as_frames f t).to_frame = t := rfl

@[simp] theorem idRT_from_frame (f t : String) : (idRT f t).from_frame = f := rfl

@[simp] theorem idRT_to_frame (f t : String) : (idRT f t).to_frame = t := rfl

@[simp] theorem ros_pose_to_T_from_frame (p : Pose) (f t : String) :
    (ros_pose_to_T p f t).from_frame = f := rfl

@[simp] theorem ros_pose_to_T_to_frame (p : Pose) (f t : String) :
    (ros_pose_to_T p f t).to_frame = t := rfl

/-- The pose-forward chain of line 126–131 as a function of the first
composite `T_mz_mc` and the baseline transforms. -/
def chainTail (t2 Z Zc Y Yi Yc : RigidTransform) : RigidTransform :=
  ((Y.compV Yi).compV
    ((T_YIR_MI.compV
        (((Z.compV t2).compV Zc).as_frames "masters_current" "masters_init")).compV
      T_MC_YCR)).compV Yc

/-- Composing with a relabelled transform and then with the original pose
cancels the pose numerically (orthogonality of its rotation). -/
theorem compV_cancel (x P : RigidTransform) (f' t' : String)
    (h : P.rotation.transpose.mul P.rotation = M3.one) :
    (x.compV (P.as_frames f' t').inverse).compV P
      = ⟨x.rotation, x.translation, P.from_frame, x.to_frame⟩ := by
  simp only [RigidTransform.compV, RigidTransform.inverse, RigidTransform.as_frames]
  rw [M3.mul_assoc, h, M3.mul_one, M3.mulVec_mulVec, M3.mulVec_neg,
    ← V3.add_assoc, V3.add_neg, V3.zero_add]

/-- A zeroed, un-clutched, drained state publishes exactly the composed
chain on every incoming pose. -/
theorem poseCb_emits (s : ConnState) (p : Pose)
    (A B Z Zc Y Yi Yc : RigidTransform)
    (hA : s.T_mz_cu_t = some A) (hB : s.T_w_cu_t = some B)
    (hZ : s.T_mzr_mz = some Z) (hZc : s.T_mc_mcr = some Zc)
    (hY : s.T_w_yi = some Y) (hYi : s.T_yi_yir = some Yi)
    (hYc : s.T_ycr_yc = some Yc)
    (hAf : A.from_frame = B.from_frame)
    (hAt : A.to_frame = "masters_zero")
    (hBt : B.to_frame = "world")
    (hZf : Z.from_frame = "masters_zero")
    (hZct : Zc.to_frame = "masters_current")
    (hYf : Y.from_frame = "yumi_init")
    (hYif : Yi.from_frame = "yumi_init_ref")
    (hYit : Yi.to_frame = "yumi_init")
    (hYct : Yc.to_frame = "yumi_current_ref")
    (hq : s.cb_prop_q = []) (hz : s.has_zeroed = true) (hc : s.clutch_state = false) :
    position_cartesian_current_callback s p =
      ({ s with T_w_mc := some (ros_pose_to_T p "masters_current" "world") },
       some (T_to_ros_pose (chainTail
         ((A.compV B.inverse).compV (ros_pose_to_T p "masters_current" "world"))
         Z Zc Y Yi Yc))) := by
  simp [position_cartesian_current_callback, update_cb_objs, forwardT, chainTail,
    RigidTransform.mul, T_YIR_MI, T_MC_YCR, hq, hz, hc, hA, hB, hZ, hZc, hY, hYi, hYc,
    hAf, hAt, hBt, hZf, hZct, hYf, hYif, hYit, hYct]

/-- Clutch-down after zeroing: bump the epoch, snapshot `T_w_cd_t1` under
the new clutch-down label, engage. -/
theorem clutchDown_eq (s : ConnState) (m : RigidTransform)
    (hz : s.has_zeroed = true) (hm : s.T_w_mc = some m) :
    clutch_callback s true = .ok { s with
      clutch_i := s.clutch_i + 1,
      T_w_cd_t1 := some (m.as_frames (clutchFrame "down" (s.clutch_i + 1)) "world"),
      clutch_state := true } := by
  simp [clutch_callback, hz, hm]

/-- Clutch-up after zeroing with consistent labels: fold the clutched
motion into `T_mz_cu_t`, refresh `T_w_cu_t`, disengage. -/
theorem clutchUp_eq (s : ConnState) (A B C m : RigidTransform)
    (hz : s.has_zeroed = true)
    (hA : s.T_mz_cu_t = some A) (hB : s.T_w_cu_t = some B)
    (hC : s.T_w_cd_t1 = some C) (hm : s.T_w_mc = some m)
    (hAf : A.from_frame = B.from_frame)
    (hBt : B.to_frame = "world")
    (hCt : C.to_frame = "world")
    (hCf : C.from_frame = clutchFrame "down" s.clutch_i) :
    clutch_callback s false = .ok { s with
      T_mz_cu_t := some (((A.compV B.inverse).compV C).compV
        (idRT (clutchFrame "up" s.clutch_i) (clutchFrame "down" s.clutch_i))),
      T_w_cu_t := some (m.as_frames (clutchFrame "up" s.clutch_i) "world"),
      clutch_state := false } := by
  simp [clutch_callback, RigidTransform.mul, hz, hA, hB, hC, hm, hAf, hBt, hCt, hCf]

/-- While the clutch is engaged (and the queue drained) nothing is
published. -/
theorem poseCb_silent_clutched (s : ConnState) (q : Pose)
    (hz : s.has_zeroed = true) (hc : s.clutch_state = true)
    (hq : s.cb_prop_q = []) :
    position_cartesian_current_callback s q =
      ({ s with T_w_mc := some (ros_pose_to_T q "masters_current" "world") }, none) := by
  simp [position_cartesian_current_callback, update_cb_objs, hq, hz, hc]

theorem framesOf_eq (o : Option RigidTransform) (f t : String)
    (h : framesOf o = some (f, t)) :
    ∃ u, o = some u ∧ u.from_frame = f ∧ u.to_frame = t := by
  cases o with
  | none => simp [framesOf] at h
  | some u =>
    simp only [framesOf, Option.some.injEq, Prod.mk.injEq] at h
    exact ⟨u, rfl, h.1, h.2⟩

/-- State after: master pose `pa` delivered, then clutch pressed. -/
def afterClutchDown (s : ConnState) (pa : Pose) : ConnState :=
  runExc (clutch_callback (position_cartesian_current_callback s pa).1 true)

/-- State after: `pa` delivered, clutch pressed, `pb` delivered while
engaged, clutch released at `pb`. -/
def afterClutchUp (s : ConnState) (pa pb : Pose) : ConnState :=
  runExc (clutch_callback
    (position_cartesian_current_callback (afterClutchDown s pa) pb).1 false)

/-- Claim C1: from any zeroed steady state, a master jump from `pa` to
`pb` while clutched is absorbed: nothing is published during engagement,
and after clutch-up at `pb`, feeding `pb` again publishes exactly the last
pose published for `pa` before clutch-down. -/
theorem clutch_absorption (s : ConnState) (pa pb : Pose) (hS : Steady s)
    (hPb : M3.IsOrtho pb.rotation) :
    (∀ q : Pose, (position_cartesian_current_callback (afterClutchDown s pa) q).2 = none) ∧
    ((position_cartesian_current_callback s pa).2).isSome = true ∧
    (position_cartesian_current_callback (afterClutchUp s pa pb) pb).2
      = (position_cartesian_current_callback s pa).2 := by
  obtain ⟨hz, hc, hq, h1, h2, h3, h4, h5, h6, h7⟩ := hS
  obtain ⟨A, hA, hAf, hAt⟩ := framesOf_eq _ _ _ h1
  obtain ⟨B, hB, hBf, hBt⟩ := framesOf_eq _ _ _ h2
  obtain ⟨Z, hZ, hZf, hZt⟩ := framesOf_eq _ _ _ h3
  obtain ⟨Zc, hZc, hZcf, hZct⟩ := framesOf_eq _ _ _ h4
  obtain ⟨Y, hY, hYf, hYt⟩ := framesOf_eq _ _ _ h5
  obtain ⟨Yi, hYi, hYif, hYit⟩ := framesOf_eq _ _ _ h6
  obtain ⟨Yc, hYc, hYcf, hYct⟩ := framesOf_eq _ _ _ h7
  have hAB : A.from_frame = B.from_frame := by rw [hAf, hBf]
  have hemit := poseCb_emits s pa A B Z Zc Y Yi Yc hA hB hZ hZc hY hYi hYc
    hAB hAt hBt hZf hZct hYf hYif hYit hYct hq hz hc
  have h1' : (position_cartesian_current_callback s pa).1
      = { s with T_w_mc := some (ros_pose_to_T pa "masters_current" "world") } := by
    rw [hemit]
  have hcd : afterClutchDown s pa
      = { s with T_w_mc := some (ros_pose_to_T pa "masters_current" "world"),
                 clutch_i := s.clutch_i + 1,
                 T_w_cd_t1 := some ((ros_pose_to_T pa "masters_current" "world").as_frames
                    (clutchFrame "down" (s.clutch_i + 1)) "world"),
                 clutch_state := true } := by
    rw [afterClutchDown, h1',
      clutchDown_eq { s with T_w_mc := some (ros_pose_to_T pa "masters_current" "world") }
        (ros_pose_to_T pa "masters_current" "world") hz rfl]
    rfl
  refine ⟨?_, ?_, ?_⟩
  · intro q
    rw [hcd,
      poseCb_silent_clutched
        { s with T_w_mc := some (ros_pose_to_T pa "masters_current" "world"),
                 clutch_i := s.clutch_i + 1,
                 T_w_cd_t1 := some ((ros_pose_to_T pa "masters_current" "world").as_frames
                    (clutchFrame "down" (s.clutch_i + 1)) "world"),
                 clutch_state := true }
        q hz rfl hq]
  · rw [hemit]
    rfl
  · have hmid : (position_cartesian_current_callback (afterClutchDown s pa) pb).1
        = { s with T_w_mc := some (ros_pose_to_T pb "masters_current" "world"),
                   clutch_i := s.clutch_i + 1,
                   T_w_cd_t1 := some ((ros_pose_to_T pa "masters_current" "world").as_frames
                      (clutchFrame "down" (s.clutch_i + 1)) "world"),
                   clutch_state := true } := by
      rw [hcd,
        poseCb_silent_clutched
          { s with T_w_mc := some (ros_pose_to_T pa "masters_current" "world"),
                   clutch_i := s.clutch_i + 1,
                   T_w_cd_t1 := some ((ros_pose_to_T pa "masters_current" "world").as_frames
                      (clutchFrame "down" (s.clutch_i + 1)) "world"),
                   clutch_state := true }
          pb hz rfl hq]
    have hcu : afterClutchUp s pa pb
        = { s with T_w_mc := some (ros_pose_to_T pb "masters_current" "world"),
                   clutch_i := s.clutch_i + 1,
                   T_mz_cu_t := some (((A.compV B.inverse).compV
                      ((ros_pose_to_T pa "masters_current" "world").as_frames
                        (clutchFrame "down" (s.clutch_i + 1)) "world")).compV
                      (idRT (clutchFrame "up" (s.clutch_i + 1))
                            (clutchFrame "down" (s.clutch_i + 1)))),
                   T_w_cu_t := some ((ros_pose_to_T pb "masters_current" "world").as_frames
                      (clutchFrame "up" (s.clutch_i + 1)) "world"),
                   T_w_cd_t1 := some ((ros_pose_to_T pa "masters_current" "world").as_frames
                      (clutchFrame "down" (s.clutch_i + 1)) "world"),
                   clutch_state := false } := by
      rw [afterClutchUp, hmid,
        clutchUp_eq
          { s with T_w_mc := some (ros_pose_to_T pb "masters_current" "world"),
                   clutch_i := s.clutch_i + 1,
                   T_w_cd_t1 := some ((ros_pose_to_T pa "masters_current" "world").as_frames
                      (clutchFrame "down" (s.clutch_i + 1)) "world"),
                   clutch_state := true }
          A B
          ((ros_pose_to_T pa "masters_current" "world").as_frames
            (clutchFrame "down" (s.clutch_i + 1)) "world")
          (ros_pose_to_T pb "masters_current" "world")
          hz hA hB rfl rfl hAB hBt rfl rfl]
      rfl
    have hfin := poseCb_emits
      { s with T_w_mc := some (ros_pose_to_T pb "masters_current" "world"),
               clutch_i := s.clutch_i + 1,
               T_mz_cu_t := some (((A.compV B.inverse).compV
                  ((ros_pose_to_T pa "masters_current" "world").as_frames
                    (clutchFrame "down" (s.clutch_i + 1)) "world")).compV
                  (idRT (clutchFrame "up" (s.clutch_i + 1))
                        (clutchFrame "down" (s.clutch_i + 1)))),
               T_w_cu_t := some ((ros_pose_to_T pb "masters_current" "world").as_frames
                  (clutchFrame "up" (s.clutch_i + 1)) "world"),
               T_w_cd_t1 := some ((ros_pose_to_T pa "masters_current" "world").as_frames
                  (clutchFrame "down" (s.clutch_i + 1)) "world"),
               clutch_state := false }
      pb
      (((A.compV B.inverse).compV
          ((ros_pose_to_T pa "masters_current" "world").as_frames
            (clutchFrame "down" (s.clutch_i + 1)) "world")).compV
        (idRT (clutchFrame "up" (s.clutch_i + 1)) (clutchFrame "down" (s.clutch_i + 1))))
      ((ros_pose_to_T pb "masters_current" "world").as_frames
        (clutchFrame "up" (s.clutch_i + 1)) "world")
      Z Zc Y Yi Yc rfl rfl hZ hZc hY hYi hYc rfl (by simp [hAt]) rfl
      hZf hZct hYf hYif hYit hYct hq hz rfl
    rw [hcu, hfin, hemit]
    have hkey : ((((A.compV B.inverse).compV
          ((ros_pose_to_T pa "masters_current" "world").as_frames
            (clutchFrame "down" (s.clutch_i + 1)) "world")).compV
        (idRT (clutchFrame "up" (s.clutch_i + 1))
              (clutchFrame "down" (s.clutch_i + 1)))).compV
        ((ros_pose_to_T pb "masters_current" "world").as_frames
          (clutchFrame "up" (s.clutch_i + 1)) "world").inverse).compV
        (ros_pose_to_T pb "masters_current" "world")
        = (A.compV B.inverse).compV (ros_pose_to_T pa "masters_current" "world") := by
      rw [compV_cancel _ (ros_pose_to_T pb "masters_current" "world") _ _ hPb.2]
      rw [RigidTransform.compV_idRT]
      simp [RigidTransform.compV, RigidTransform.as_frames, ros_pose_to_T]
    rw [hkey]

/-- Modelled from the spec (§4.4 step 4, for comparison with the code's
chain): `T_masterZero_masterCurrent = T_masterZero_clutchUp *
inverse(T_world_clutchUp) * P`, rebased and composed with the two fixed
re-basing rotations, the two fixed calibration rotations, and the
robot-side baseline chain. -/
def forwardSpec (tmzcu twcu tmzrmz tmcmcr twyi tyiyir tycryc : Option RigidTransform)
    (P : RigidTransform) : Option RigidTransform :=
  tmzcu.bind fun a0 =>
  twcu.bind fun b0 =>
  (RigidTransform.mul a0 b0.inverse).bind fun x1 =>
  (RigidTransform.mul x1 P).bind fun tmzmc =>
  tmzrmz.bind fun z0 =>
  tmcmcr.bind fun zc0 =>
  (RigidTransform.mul z0 tmzmc).bind fun x2 =>
  (RigidTransform.mul x2 zc0).bind fun tmzrmcr =>
  (RigidTransform.mul T_YIR_MI
      (tmzrmcr.as_frames "masters_current" "masters_init")).bind fun x3 =>
  (RigidTransform.mul x3 T_MC_YCR).bind fun tyirycr =>
  twyi.bind fun y0 =>
  tyiyir.bind fun yi0 =>
  (RigidTransform.mul y0 yi0).bind fun x4 =>
  (RigidTransform.mul x4 tyirycr).bind fun x5 =>
  tycryc.bind fun yc0 =>
  RigidTransform.mul x5 yc0

/-- Claim C2: on every pose received in a zeroed, un-clutched steady
state, the published robot target equals the spec's composition formula
(and a pose is indeed published). -/
theorem pose_forward_formula (s : ConnState) (p : Pose) (hS : Steady s) :
    (position_cartesian_current_callback s p).2
      = Option.map T_to_ros_pose
          (forwardSpec s.T_mz_cu_t s.T_w_cu_t s.T_mzr_mz s.T_mc_mcr
            s.T_w_yi s.T_yi_yir s.T_ycr_yc
            (ros_pose_to_T p "masters_current" "world"))
    ∧ ((position_cartesian_current_callback s p).2).isSome = true := by
  obtain ⟨hz, hc, hq, h1, h2, h3, h4, h5, h6, h7⟩ := hS
  obtain ⟨A, hA, hAf, hAt⟩ := framesOf_eq _ _ _ h1
  obtain ⟨B, hB, hBf, hBt⟩ := framesOf_eq _ _ _ h2
  obtain ⟨Z, hZ, hZf, hZt⟩ := framesOf_eq _ _ _ h3
  obtain ⟨Zc, hZc, hZcf, hZct⟩ := framesOf_eq _ _ _ h4
  obtain ⟨Y, hY, hYf, hYt⟩ := framesOf_eq _ _ _ h5
  obtain ⟨Yi, hYi, hYif, hYit⟩ := framesOf_eq _ _ _ h6
  obtain ⟨Yc, hYc, hYcf, hYct⟩ := framesOf_eq _ _ _ h7
  have hAB : A.from_frame = B.from_frame := by rw [hAf, hBf]
  have hemit := poseCb_emits s p A B Z Zc Y Yi Yc hA hB hZ hZc hY hYi hYc
    hAB hAt hBt hZf hZct hYf hYif hYit hYct hq hz hc
  rw [hemit]
  refine ⟨?_, rfl⟩
  simp [forwardSpec, chainTail, RigidTransform.mul, T_YIR_MI, T_MC_YCR,
    hA, hB, hZ, hZc, hY, hYi, hYc, hAB, hAt, hBt, hZf, hZct, hYf, hYif, hYit, hYct]

/-- The in-place field assignments performed by `_reset_init_poses`
(everything except its queue pushes). -/
def resetBase (s : ConnState) (y m : RigidTransform) : ConnState :=
  { s with
    T_mz_cu_t := some (idRT (clutchFrame "up" s.clutch_i) "masters_zero"),
    T_w_cu_t := some (m.as_frames (clutchFrame "up" s.clutch_i) "world"),
    T_mzr_mz := some ⟨(m.as_frames (clutchFrame "up" s.clutch_i) "world").rotation,
      V3.zero, "masters_zero", "masters_zero_ref"⟩,
    T_mc_mcr := some ⟨(m.as_frames (clutchFrame "up" s.clutch_i) "world").inverse.rotation,
      V3.zero, "masters_current_ref", "masters_current"⟩,
    T_w_yi := some y,
    T_yi_yir := some ⟨y.inverse.rotation, V3.zero, "yumi_init_ref", "yumi_init"⟩,
    T_ycr_yc := some ⟨y.rotation, V3.zero, "yumi_current", "yumi_current_ref"⟩ }

/-- The three records `_reset_init_poses` pushes onto `cb_prop_q`. -/
def resetRecs (s : ConnState) (y m : RigidTransform) : List CbRecord :=
  [CbRecord.setHZ false,
   CbRecord.setBaseline (m.as_frames (clutchFrame "up" s.clutch_i) "world")
     ⟨(m.as_frames (clutchFrame "up" s.clutch_i) "world").rotation,
       V3.zero, "masters_zero", "masters_zero_ref"⟩
     ⟨(m.as_frames (clutchFrame "up" s.clutch_i) "world").inverse.rotation,
       V3.zero, "masters_current_ref", "masters_current"⟩
     y ⟨y.inverse.rotation, V3.zero, "yumi_init_ref", "yumi_init"⟩
     ⟨y.rotation, V3.zero, "yumi_current", "yumi_current_ref"⟩,
   CbRecord.setHZ true]

/-- The object state on successful return from `_reset_init_poses`. -/
def resetState (s : ConnState) (y m : RigidTransform) : ConnState :=
  { resetBase s y m with cb_prop_q := s.cb_prop_q ++ resetRecs s y m }

theorem reset_ok_eq (s : ConnState) (y m : RigidTransform) (hm : s.T_w_mc = some m) :
    reset_init_poses s y = .ok (resetState s y m) := by
  simp [reset_init_poses, hm, resetState, resetBase, resetRecs]

/-- Applying queue records never touches the fields outside the six
baseline transforms and `has_zeroed`. -/
theorem foldl_applyRecord_preserves (q' : List CbRecord) (X : ConnState) :
    (List.foldl applyRecord X q').clutch_state = X.clutch_state ∧
    (List.foldl applyRecord X q').clutch_i = X.clutch_i ∧
    (List.foldl applyRecord X q').T_mz_cu_t = X.T_mz_cu_t ∧
    (List.foldl applyRecord X q').T_w_mc = X.T_w_mc ∧
    (List.foldl applyRecord X q').T_w_cd_t1 = X.T_w_cd_t1 ∧
    (List.foldl applyRecord X q').has_clutched_down = X.has_clutched_down ∧
    (List.foldl applyRecord X q').has_clutched_up = X.has_clutched_up := by
  induction q' generalizing X with
  | nil => exact ⟨rfl, rfl, rfl, rfl, rfl, rfl, rfl⟩
  | cons r rest ih =>
    have h := ih (applyRecord X r)
    cases r <;> simpa [applyRecord] using h

attribute [ext] ConnState

/-- Settling after a reset: the queued records re-apply exactly the fields
the reset already assigned in place, and finish with `has_zeroed := true`;
any older queued records are fully superseded. -/
theorem settle_resetState (x : ConnState) (y m : RigidTransform) :
    settle (resetState x y m)
      = { resetBase x y m with cb_prop_q := [], has_zeroed := true } := by
  obtain ⟨p1, p2, p3, p4, p5, p6, p7⟩ :=
    foldl_applyRecord_preserves x.cb_prop_q (resetState x y m)
  show ({ List.foldl applyRecord (resetState x y m) (x.cb_prop_q ++ resetRecs x y m)
      with cb_prop_q := [] } : ConnState) = _
  rw [List.foldl_append]
  ext <;>
    simp only [resetRecs, List.foldl_cons, List.foldl_nil, applyRecord, resetBase] <;>
    first
      | rfl
      | exact p1 | exact p2 | exact p3 | exact p4 | exact p5 | exact p6 | exact p7
      | (rw [p3]; exact Iff.rfl) | (rw [p4]; exact Iff.rfl) | (rw [p5]; exact Iff.rfl)

/-- Claim C7: a second reset from the same master pose and robot pose
fully supersedes the first — once the queued records are drained the relay
state, and hence the output for any subsequent master pose, is identical. -/
theorem reset_idempotent (s : ConnState) (y m : RigidTransform)
    (hm : s.T_w_mc = some m) (p : Pose) :
    settle (runExc (reset_init_poses (runExc (reset_init_poses s y)) y))
      = settle (runExc (reset_init_poses s y)) ∧
    (position_cartesian_current_callback
        (settle (runExc (reset_init_poses (runExc (reset_init_poses s y)) y))) p).2
      = (position_cartesian_current_callback
        (settle (runExc (reset_init_poses s y))) p).2 := by
  have h1 : settle (runExc (reset_init_poses (runExc (reset_init_poses s y)) y))
      = settle (runExc (reset_init_poses s y)) := by
    rw [reset_ok_eq s y m hm]
    show settle (runExc (reset_init_poses (resetState s y m) y)) = settle (resetState s y m)
    rw [reset_ok_eq (resetState s y m) y m hm]
    show settle (resetState (resetState s y m) y m) = settle (resetState s y m)
    rw [settle_resetState, settle_resetState]
    rfl
  exact ⟨h1, by rw [h1]⟩

/-- Cancellation at the head of the forward chain: right after a reset,
`T_mz_cu_t` is the identity and `T_w_cu_t` is the zero pose, so feeding a
pose that differs from the zero pose by a master-frame translation `u`
leaves exactly `u`. -/
theorem idRT_compV_cancel (R S : M3) (t v u : V3) (a g u1 u2 : String)
    (h2 : R.transpose.mul R = M3.one)
    (hS : S = R) (hv : v = (R.mulVec u).add t) :
    ((idRT a g).compV
        ((RigidTransform.mk R t u1 u2).as_frames a "world").inverse).compV
      (RigidTransform.mk S v "masters_current" "world")
      = ⟨M3.one, u, "masters_current", g⟩ := by
  subst hS hv
  simp only [idRT, RigidTransform.compV, RigidTransform.inverse, RigidTransform.as_frames,
    M3.one_mul, M3.one_mulVec, V3.add_zero, M3.mulVec_add, V3.add_assoc, V3.add_neg]
  rw [← M3.mulVec_mulVec, h2, M3.one_mulVec]

/-- The tail of the forward chain for a freshly reset baseline with robot
world pose identity: a master displacement `u` maps to the calibrated
translation with no rotational change. -/
theorem chainTail_idRT (R : M3) (u : V3) (g : String)
    (h1 : R.mul R.transpose = M3.one) :
    chainTail (⟨M3.one, u, "masters_current", g⟩ : RigidTransform)
      (⟨R, V3.zero, "masters_zero", "masters_zero_ref"⟩ : RigidTransform)
      (⟨R.transpose, V3.zero, "masters_current_ref", "masters_current"⟩ : RigidTransform)
      (idRT "yumi_init" "world")
      (⟨M3.one, V3.zero, "yumi_init_ref", "yumi_init"⟩ : RigidTransform)
      (⟨M3.one, V3.zero, "yumi_current", "yumi_current_ref"⟩ : RigidTransform)
      = ⟨M3.one, T_YIR_MI.rotation.mulVec (R.mulVec u), "yumi_current", "world"⟩ := by
  have hRR : M3.mul ⟨0, 1, 0, -1, 0, 0, 0, 0, 1⟩ ⟨0, -1, 0, 1, 0, 0, 0, 0, 1⟩ = M3.one := by
    decide
  simp [chainTail, RigidTransform.compV, RigidTransform.as_frames, idRT,
    T_YIR_MI, T_MC_YCR, M3.mul_one, M3.one_mul, M3.mulVec_zero, V3.add_zero,
    V3.zero_add, M3.one_mulVec, h1, hRR]

/-- The relay state after zeroing from master pose `M0` with robot world
pose the identity, once the queued records have been drained. -/
def zeroedAt (M0 : Pose) : ConnState :=
  settle (runExc (reset_init_poses
    { initState with T_w_mc := some (ros_pose_to_T M0 "masters_current" "world") }
    (idRT "yumi_init" "world")))

/-- Claim C8: zero with robot world pose the identity and master pose
`M0`; feeding `M0` publishes the identity pose, and feeding
`M0 * translate(dx,0,0)` publishes a pure translation — the master-frame
x-displacement mapped through the fixed calibration rotation — with zero
rotational change. -/
theorem concrete_scenario (M0 : Pose) (dx : ℤ) (h : M3.IsOrtho M0.rotation) :
    (position_cartesian_current_callback (zeroedAt M0) M0).2
      = some ⟨M3.one, V3.zero⟩ ∧
    (position_cartesian_current_callback (zeroedAt M0)
        (T_to_ros_pose ((ros_pose_to_T M0 "masters_current" "world").compV
          ⟨M3.one, ⟨dx, 0, 0⟩, "masters_current", "masters_current"⟩))).2
      = some ⟨M3.one, T_YIR_MI.rotation.mulVec (M0.rotation.mulVec ⟨dx, 0, 0⟩)⟩ := by
  have hzd : zeroedAt M0
      = { resetBase
            { initState with T_w_mc := some (ros_pose_to_T M0 "masters_current" "world") }
            (idRT "yumi_init" "world") (ros_pose_to_T M0 "masters_current" "world")
          with cb_prop_q := [], has_zeroed := true } := by
    unfold zeroedAt
    rw [reset_ok_eq
      { initState with T_w_mc := some (ros_pose_to_T M0 "masters_current" "world") }
      (idRT "yumi_init" "world") (ros_pose_to_T M0 "masters_current" "world") rfl]
    show settle (resetState
      { initState with T_w_mc := some (ros_pose_to_T M0 "masters_current" "world") }
      (idRT "yumi_init" "world") (ros_pose_to_T M0 "masters_current" "world")) = _
    rw [settle_resetState]
  constructor
  · have hemit := poseCb_emits
      { resetBase
          { initState with T_w_mc := some (ros_pose_to_T M0 "masters_current" "world") }
          (idRT "yumi_init" "world") (ros_pose_to_T M0 "masters_current" "world")
        with cb_prop_q := [], has_zeroed := true }
      M0
      (idRT (clutchFrame "up" 0) "masters_zero")
      ((ros_pose_to_T M0 "masters_current" "world").as_frames (clutchFrame "up" 0) "world")
      (⟨M0.rotation, V3.zero, "masters_zero", "masters_zero_ref"⟩ : RigidTransform)
      (⟨M0.rotation.transpose, V3.zero, "masters_current_ref", "masters_current"⟩ :
        RigidTransform)
      (idRT "yumi_init" "world")
      (⟨M3.one, V3.zero, "yumi_init_ref", "yumi_init"⟩ : RigidTransform)
      (⟨M3.one, V3.zero, "yumi_current", "yumi_current_ref"⟩ : RigidTransform)
      rfl rfl rfl rfl rfl rfl rfl rfl rfl rfl rfl rfl rfl rfl rfl rfl rfl rfl rfl
    rw [hzd, hemit]
    have hE : ((idRT (clutchFrame "up" 0) "masters_zero").compV
          ((ros_pose_to_T M0 "masters_current" "world").as_frames
            (clutchFrame "up" 0) "world").inverse).compV
          (ros_pose_to_T M0 "masters_current" "world")
        = (⟨M3.one, V3.zero, "masters_current", "masters_zero"⟩ : RigidTransform) :=
      idRT_compV_cancel M0.rotation M0.rotation M0.translation M0.translation V3.zero
        (clutchFrame "up" 0) "masters_zero" "masters_current" "world" h.2 rfl
        (by rw [M3.mulVec_zero, V3.zero_add])
    rw [hE, chainTail_idRT M0.rotation V3.zero "masters_zero" h.1]
    simp [T_to_ros_pose, M3.mulVec_zero]
  · have hemit := poseCb_emits
      { resetBase
          { initState with T_w_mc := some (ros_pose_to_T M0 "masters_current" "world") }
          (idRT "yumi_init" "world") (ros_pose_to_T M0 "masters_current" "world")
        with cb_prop_q := [], has_zeroed := true }
      (T_to_ros_pose ((ros_pose_to_T M0 "masters_current" "world").compV
        ⟨M3.one, ⟨dx, 0, 0⟩, "masters_current", "masters_current"⟩))
      (idRT (clutchFrame "up" 0) "masters_zero")
      ((ros_pose_to_T M0 "masters_current" "world").as_frames (clutchFrame "up" 0) "world")
      (⟨M0.rotation, V3.zero, "masters_zero", "masters_zero_ref"⟩ : RigidTransform)
      (⟨M0.rotation.transpose, V3.zero, "masters_current_ref", "masters_current"⟩ :
        RigidTransform)
      (idRT "yumi_init" "world")
      (⟨M3.one, V3.zero, "yumi_init_ref", "yumi_init"⟩ : RigidTransform)
      (⟨M3.one, V3.zero, "yumi_current", "yumi_current_ref"⟩ : RigidTransform)
      rfl rfl rfl rfl rfl rfl rfl rfl rfl rfl rfl rfl rfl rfl rfl rfl rfl rfl rfl
    rw [hzd, hemit]
    have hE : ((idRT (clutchFrame "up" 0) "masters_zero").compV
          ((ros_pose_to_T M0 "masters_current" "world").as_frames
            (clutchFrame "up" 0) "world").inverse).compV
          (ros_pose_to_T
            (T_to_ros_pose ((ros_pose_to_T M0 "masters_current" "world").compV
              ⟨M3.one, ⟨dx, 0, 0⟩, "masters_current", "masters_current"⟩))
            "masters_current" "world")
        = (⟨M3.one, ⟨dx, 0, 0⟩, "masters_current", "masters_zero"⟩ : RigidTransform) :=
      idRT_compV_cancel M0.rotation (M0.rotation.mul M3.one) M0.translation
        ((M0.rotation.mulVec ⟨dx, 0, 0⟩).add M0.translation) ⟨dx, 0, 0⟩
        (clutchFrame "up" 0) "masters_zero" "masters_current" "world" h.2
        (M3.mul_one M0.rotation) rfl
    rw [hE, chainTail_idRT M0.rotation ⟨dx, 0, 0⟩ "masters_zero" h.1]
    rfl

/-- Claim C3: processing clutch-release in a zeroed state with consistent
labels sets `T_mz_cu_t := T_mz_cu_t_old * inverse(T_w_cu_t_old) *
T_w_cd_t1 * identity_relabel(clutchUp_epoch -> clutchDown_epoch)` and then
refreshes `T_w_cu_t` to the current master pose under the new clutch-up
label. -/
theorem clutch_release_update (s : ConnState) (A B C m : RigidTransform)
    (hz : s.has_zeroed = true)
    (hA : s.T_mz_cu_t = some A) (hB : s.T_w_cu_t = some B)
    (hC : s.T_w_cd_t1 = some C) (hm : s.T_w_mc = some m)
    (hAf : A.from_frame = B.from_frame)
    (hBt : B.to_frame = "world")
    (hCt : C.to_frame = "world")
    (hCf : C.from_frame = clutchFrame "down" s.clutch_i) :
    clutch_callback s false = .ok { s with
      T_mz_cu_t := some (((A.compV B.inverse).compV C).compV
        (idRT (clutchFrame "up" s.clutch_i) (clutchFrame "down" s.clutch_i))),
      T_w_cu_t := some (m.as_frames (clutchFrame "up" s.clutch_i) "world"),
      clutch_state := false } :=
  clutchUp_eq s A B C m hz hA hB hC hm hAf hBt hCt hCf

/-- Claim C5: before the first reset completes (`has_zeroed` never set),
any trace of pose and clutch events publishes nothing at all. -/
theorem pre_zero_silence (es : List Event) (h : ∀ e ∈ es, e.isRst = false) :
    outs initState es = List.replicate es.length none := by
  suffices H : ∀ es : List Event, (∀ e ∈ es, Event.isRst e = false) →
      ∀ s : ConnState, s.has_zeroed = false → s.cb_prop_q = [] →
      outs s es = List.replicate es.length none from H es h initState rfl rfl
  intro es
  induction es with
  | nil => intro _ s _ _; rfl
  | cons e rest ih =>
    intro hall s hz hq
    have hrest : ∀ e' ∈ rest, Event.isRst e' = false := fun e' h' =>
      hall e' (List.mem_cons_of_mem e h')
    cases e with
    | pose p =>
      have hstep : position_cartesian_current_callback s p
          = ({ s with T_w_mc := some (ros_pose_to_T p "masters_current" "world") },
             none) := by
        simp [position_cartesian_current_callback, update_cb_objs, hq, hz]
      show (step s (.pose p)).2 :: outs (step s (.pose p)).1 rest = _
      rw [show step s (.pose p) = position_cartesian_current_callback s p from rfl, hstep]
      simp only [List.length_cons, List.replicate]
      exact congrArg (List.cons none) (ih hrest _ hz hq)
    | clutch b =>
      have hstep : clutch_callback s b = .ok s := by
        simp [clutch_callback, hz]
      show (step s (.clutch b)).2 :: outs (step s (.clutch b)).1 rest = _
      rw [show step s (.clutch b) = (runExc (clutch_callback s b), none) from rfl, hstep]
      simp only [List.length_cons, List.replicate]
      exact congrArg (List.cons none) (ih hrest s hz hq)
    | reset y =>
      have := hall (.reset y) (List.mem_cons_self _ _)
      simp [Event.isRst] at this

/-- Claim C6: if the forward chain of a sample fails (a `None` attribute
or a `FrameMismatch` in a composition step), the relay publishes nothing
for that sample and the state is exactly the one every sample produces
before the chain runs — the next valid sample finds it uncorrupted. -/
theorem frame_mismatch_isolation (s : ConnState) (p : Pose)
    (hfail : forwardT (update_cb_objs
      { s with T_w_mc := some (ros_pose_to_T p "masters_current" "world") }) = none) :
    position_cartesian_current_callback s p
      = (update_cb_objs
          { s with T_w_mc := some (ros_pose_to_T p "masters_current" "world") },
         none) := by
  by_cases hz : (update_cb_objs
      { s with T_w_mc := some (ros_pose_to_T p "masters_current" "world") }).has_zeroed
  · by_cases hc : (update_cb_objs
        { s with T_w_mc := some (ros_pose_to_T p "masters_current" "world") }).clutch_state
    · simp [position_cartesian_current_callback, hz, hc]
    · simp [position_cartesian_current_callback, hz, hc, hfail]
  · simp [position_cartesian_current_callback, hz]

theorem update_cb_objs_clutch_i (x : ConnState) :
    (update_cb_objs x).clutch_i = x.clutch_i := by
  cases hq : x.cb_prop_q with
  | nil => simp [update_cb_objs, hq]
  | cons r rest => cases r <;> simp [update_cb_objs, hq, applyRecord]

theorem update_cb_objs_q (x : ConnState) :
    (update_cb_objs x).cb_prop_q = x.cb_prop_q.drop 1 := by
  cases hq : x.cb_prop_q with
  | nil => simp [update_cb_objs, hq]
  | cons r rest => cases r <;> simp [update_cb_objs, hq, applyRecord]

/-- The state component of the pose callback is always the post-drain
state, whatever the gating and the chain outcome. -/
theorem poseCb_fst (s : ConnState) (p : Pose) :
    (position_cartesian_current_callback s p).1
      = update_cb_objs
          { s with T_w_mc := some (ros_pose_to_T p "masters_current" "world") } := by
  unfold position_cartesian_current_callback
  dsimp only
  split
  · rfl
  · split
    · split <;> rfl
    · rfl

theorem clutch_callback_q (s : ConnState) (b : Bool) :
    (runExc (clutch_callback s b)).cb_prop_q = s.cb_prop_q := by
  unfold clutch_callback
  dsimp only
  split
  · rfl
  · split
    · split <;> rfl
    · split
      · split
        · rfl
        · split
          · rfl
          · split
            · rfl
            · split <;> rfl
      · rfl

theorem clutch_callback_clutch_i_le (s : ConnState) (b : Bool) :
    s.clutch_i ≤ (runExc (clutch_callback s b)).clutch_i := by
  unfold clutch_callback
  dsimp only
  split
  · exact Nat.le_refl _
  · split
    · split <;> exact Nat.le_succ _
    · split
      · split
        · exact Nat.le_refl _
        · split
          · exact Nat.le_refl _
          · split
            · exact Nat.le_refl _
            · split <;> exact Nat.le_refl _
      · exact Nat.le_refl _

theorem reset_clutch_i (s : ConnState) (y : RigidTransform) :
    (runExc (reset_init_poses s y)).clutch_i = s.clutch_i := by
  unfold reset_init_poses
  dsimp only
  split <;> rfl

theorem clutch_down_epoch (s : ConnState) (hz : s.has_zeroed = true) :
    (runExc (clutch_callback s true)).clutch_i = s.clutch_i + 1 := by
  cases hm : s.T_w_mc with
  | none => simp [clutch_callback, hz, hm, runExc]
  | some m => simp [clutch_callback, hz, hm, runExc]

theorem clutch_ignored_before_zero (s : ConnState) (b : Bool)
    (hz : s.has_zeroed = false) :
    runExc (clutch_callback s b) = s := by
  simp [clutch_callback, hz, runExc]

theorem clutchFrame_inj (tag : String) {i j : Nat}
    (h : clutchFrame tag i = clutchFrame tag j) : i = j := by
  have hd := congrArg String.data h
  simp only [clutchFrame, String.data_append, List.append_assoc] at hd
  have h1 := List.append_cancel_left hd
  have h2 := List.append_cancel_left h1
  have h3 := List.append_cancel_left h2
  exact natStr_inj (String.ext h3)

/-- Claim C9: the clutch epoch only ever grows under any event; it is
incremented by exactly one on every clutch-down processed after zeroing
and untouched before zeroing; the clutch frame labels embed the epoch
injectively; and composing transforms whose labels disagree always fails
rather than silently reusing a stale transform. -/
theorem epoch_invariant :
    (∀ (s : ConnState) (e : Event), s.clutch_i ≤ (step s e).1.clutch_i) ∧
    (∀ s : ConnState, s.has_zeroed = true →
      (runExc (clutch_callback s true)).clutch_i = s.clutch_i + 1) ∧
    (∀ s : ConnState, s.has_zeroed = false →
      (runExc (clutch_callback s true)).clutch_i = s.clutch_i) ∧
    (∀ (tag : String) (i j : Nat), clutchFrame tag i = clutchFrame tag j → i = j) ∧
    (∀ a b : RigidTransform, a.from_frame ≠ b.to_frame →
      RigidTransform.mul a b = none) := by
  refine ⟨?_, ?_, ?_, ?_, ?_⟩
  · intro s e
    cases e with
    | pose p =>
      show s.clutch_i ≤ (position_cartesian_current_callback s p).1.clutch_i
      rw [poseCb_fst, update_cb_objs_clutch_i]
    | clutch b => exact clutch_callback_clutch_i_le s b
    | reset y =>
      show s.clutch_i ≤ (runExc (reset_init_poses s y)).clutch_i
      rw [reset_clutch_i]
  · intro s hz
    exact clutch_down_epoch s hz
  · intro s hz
    rw [clutch_ignored_before_zero s true hz]
  · intro tag i j h
    exact clutchFrame_inj tag h
  · intro a b hne
    simp [RigidTransform.mul, hne]

/-- Claim C10: `_reset_init_poses` raises (after pushing the
`has_zeroed := false` record and assigning `T_mz_cu_t`) precisely when no
master pose has ever been received; with a master pose present it
completes. -/
theorem reset_requires_master_pose (s : ConnState) (y : RigidTransform) :
    exceptOk (reset_init_poses s y) = s.T_w_mc.isSome ∧
    (s.T_w_mc = none →
      reset_init_poses s y = .error
        { s with cb_prop_q := s.cb_prop_q ++ [CbRecord.setHZ false],
                 T_mz_cu_t := some (idRT (clutchFrame "up" s.clutch_i) "masters_zero") }) := by
  constructor
  · cases hm : s.T_w_mc with
    | none => simp [reset_init_poses, hm, exceptOk]
    | some m =>
      rw [reset_ok_eq s y m hm]
      simp [exceptOk]
  · intro hm
    simp [reset_init_poses, hm]

/-- Claim C4 (amended): reset pushes three records (the `has_zeroed`
bracket around one baseline record) onto `cb_prop_q` but ALSO assigns the
baseline fields in place (`has_zeroed` itself changes only via the
queue); clutch events never touch the queue (clutch-up applies its update
purely in place); and each pose-forward invocation drains at most ONE
pending record — the oldest — not all of them. -/
theorem baseline_update_mechanics :
    (∀ (s : ConnState) (y m : RigidTransform), s.T_w_mc = some m →
      reset_init_poses s y = .ok (resetState s y m) ∧
      (resetState s y m).cb_prop_q = s.cb_prop_q ++ resetRecs s y m ∧
      (resetState s y m).T_w_cu_t
        = some (m.as_frames (clutchFrame "up" s.clutch_i) "world") ∧
      (resetState s y m).has_zeroed = s.has_zeroed) ∧
    (∀ (s : ConnState) (b : Bool),
      (runExc (clutch_callback s b)).cb_prop_q = s.cb_prop_q) ∧
    (∀ (s : ConnState) (p : Pose),
      (position_cartesian_current_callback s p).1.cb_prop_q = s.cb_prop_q.drop 1) := by
  refine ⟨?_, ?_, ?_⟩
  · intro s y m hm
    exact ⟨reset_ok_eq s y m hm, rfl, rfl, rfl⟩
  · intro s b
    exact clutch_callback_q s b
  · intro s p
    rw [poseCb_fst, update_cb_objs_q]

/-- A concrete zeroed, disengaged steady state (as produced by a reset at
the zero master pose, once drained). -/
def sW : ConnState :=
  { clutch_state := false, clutch_i := 0,
    T_mz_cu_t := some (idRT (clutchFrame "up" 0) "masters_zero"),
    T_w_cu_t := some (idRT (clutchFrame "up" 0) "world"),
    T_mzr_mz := some (idRT "masters_zero" "masters_zero_ref"),
    T_mc_mcr := some (idRT "masters_current_ref" "masters_current"),
    T_w_mc := some (idRT "masters_current" "world"),
    T_w_cd_t1 := none,
    T_w_yi := some (idRT "yumi_init" "world"),
    T_yi_yir := some (idRT "yumi_init_ref" "yumi_init"),
    T_ycr_yc := some (idRT "yumi_current" "yumi_current_ref"),
    cb_prop_q := [], has_zeroed := true,
    has_clutched_down := false, has_clutched_up := false }

/-- A concrete engaged state mid-clutch-cycle (epoch 1, baseline from
epoch 0). -/
def sE : ConnState :=
  { clutch_state := true, clutch_i := 1,
    T_mz_cu_t := some (idRT (clutchFrame "up" 0) "masters_zero"),
    T_w_cu_t := some (idRT (clutchFrame "up" 0) "world"),
    T_mzr_mz := none, T_mc_mcr := none,
    T_w_mc := some ⟨M3.one, ⟨9, 9, 9⟩, "masters_current", "world"⟩,
    T_w_cd_t1 := some ⟨M3.one, ⟨5, 0, 0⟩, clutchFrame "down" 1, "world"⟩,
    T_w_yi := none, T_yi_yir := none, T_ycr_yc := none,
    cb_prop_q := [], has_zeroed := true,
    has_clutched_down := false, has_clutched_up := false }

/-- A concrete state whose baseline labels disagree across epochs, so the
forward chain raises `FrameMismatch`. -/
def sM : ConnState :=
  { sW with T_w_cu_t := some (idRT (clutchFrame "up" 1) "world") }

def pW : Pose := ⟨M3.one, ⟨1, 2, 3⟩⟩

def qW : Pose := ⟨M3.one, ⟨4, 5, 6⟩⟩

/-- Claim C4 counterexample: processing a clutch-up on the concrete
engaged state `sE` changes the live `T_mz_cu_t` in place while the queue
stays empty — the update is neither deferred nor queued. -/
theorem clutch_up_in_place_cex :
    (runExc (clutch_callback sE false)).T_mz_cu_t ≠ sE.T_mz_cu_t ∧
    (runExc (clutch_callback sE false)).cb_prop_q = [] ∧
    sE.cb_prop_q = [] := by decide

/-- Witness for C1 at the concrete steady state `sW`. -/
theorem clutch_absorption_witness :
    Steady sW ∧ M3.IsOrtho qW.rotation ∧
    (position_cartesian_current_callback (afterClutchUp sW pW qW) qW).2
      = (position_cartesian_current_callback sW pW).2 :=
  ⟨by decide, by decide, (clutch_absorption sW pW qW (by decide) (by decide)).2.2⟩

/-- Witness for C2 at the concrete steady state `sW`. -/
theorem pose_forward_formula_witness :
    (position_cartesian_current_callback sW pW).2
      = Option.map T_to_ros_pose
          (forwardSpec sW.T_mz_cu_t sW.T_w_cu_t sW.T_mzr_mz sW.T_mc_mcr
            sW.T_w_yi sW.T_yi_yir sW.T_ycr_yc
            (ros_pose_to_T pW "masters_current" "world")) :=
  (pose_forward_formula sW pW (by decide)).1

/-- Witness for C3 at the concrete engaged state `sE`. -/
theorem clutch_release_update_witness :
    clutch_callback sE false = .ok { sE with
      T_mz_cu_t := some ((((idRT (clutchFrame "up" 0) "masters_zero").compV
          (idRT (clutchFrame "up" 0) "world").inverse).compV
          (⟨M3.one, ⟨5, 0, 0⟩, clutchFrame "down" 1, "world"⟩ : RigidTransform)).compV
        (idRT (clutchFrame "up" sE.clutch_i) (clutchFrame "down" sE.clutch_i))),
      T_w_cu_t := some ((⟨M3.one, ⟨9, 9, 9⟩, "masters_current", "world"⟩ :
          RigidTransform).as_frames (clutchFrame "up" sE.clutch_i) "world"),
      clutch_state := false } :=
  clutch_release_update sE (idRT (clutchFrame "up" 0) "masters_zero")
    (idRT (clutchFrame "up" 0) "world")
    ⟨M3.one, ⟨5, 0, 0⟩, clutchFrame "down" 1, "world"⟩
    ⟨M3.one, ⟨9, 9, 9⟩, "masters_current", "world"⟩
    rfl rfl rfl rfl rfl rfl rfl rfl rfl

/-- Witness for C4 (amended) at concrete states. -/
theorem baseline_update_mechanics_witness :
    reset_init_poses sW (idRT "yumi_init" "world")
      = .ok (resetState sW (idRT "yumi_init" "world")
          (idRT "masters_current" "world")) ∧
    (runExc (clutch_callback sE false)).cb_prop_q = sE.cb_prop_q ∧
    (position_cartesian_current_callback sW pW).1.cb_prop_q = sW.cb_prop_q.drop 1 :=
  ⟨(baseline_update_mechanics.1 sW (idRT "yumi_init" "world")
      (idRT "masters_current" "world") rfl).1,
   baseline_update_mechanics.2.1 sE false,
   baseline_update_mechanics.2.2 sW pW⟩

def esW : List Event :=
  [Event.pose pW, Event.clutch true, Event.pose qW, Event.clutch false]

/-- Witness for C5 on a concrete reset-free trace. -/
theorem pre_zero_silence_witness :
    outs initState esW = List.replicate esW.length none :=
  pre_zero_silence esW (by decide)

/-- Witness for C6 at the concrete mismatched state `sM`. -/
theorem frame_mismatch_isolation_witness :
    position_cartesian_current_callback sM pW
      = (update_cb_objs
          { sM with T_w_mc := some (ros_pose_to_T pW "masters_current" "world") },
         none) :=
  frame_mismatch_isolation sM pW (by decide)

/-- Witness for C7 at the concrete steady state `sW`. -/
theorem reset_idempotent_witness :
    settle (runExc (reset_init_poses
        (runExc (reset_init_poses sW (idRT "yumi_init" "world")))
        (idRT "yumi_init" "world")))
      = settle (runExc (reset_init_poses sW (idRT "yumi_init" "world"))) :=
  (reset_idempotent sW (idRT "yumi_init" "world")
    (idRT "masters_current" "world") rfl pW).1

/-- Witness for C8 at the concrete master pose `pW`. -/
theorem concrete_scenario_witness :
    M3.IsOrtho pW.rotation ∧
    (position_cartesian_current_callback (zeroedAt pW) pW).2
      = some ⟨M3.one, V3.zero⟩ :=
  ⟨by decide, (concrete_scenario pW 5 (by decide)).1⟩

/-- Witness for C9 at concrete inputs. -/
theorem epoch_invariant_witness :
    (runExc (clutch_callback sW true)).clutch_i = sW.clutch_i + 1 ∧
    RigidTransform.mul (idRT (clutchFrame "up" 0) "masters_zero")
      ((idRT (clutchFrame "up" 1) "world").inverse) = none :=
  ⟨epoch_invariant.2.1 sW rfl, epoch_invariant.2.2.2.2 _ _ (by decide)⟩

/-- Witness for C10: resetting the fresh state (no master pose yet)
raises. -/
theorem reset_requires_master_pose_witness :
    reset_init_poses initState (idRT "yumi_init" "world")
      = .error
        { initState with
          cb_prop_q := initState.cb_prop_q ++ [CbRecord.setHZ false],
          T_mz_cu_t := some (idRT (clutchFrame "up" initState.clutch_i)
            "masters_zero") } :=
  (reset_requires_master_pose initState (idRT "yumi_init" "world")).2 rfl
